import Mathlib

/-!
Verification of the chess move/state/evaluation core of the repository
(src/Game Dev/Chess V2 (stockfish)).

The tracker (game_state.py), engine adapter (engine_manager.py) and input
dispatcher (input_handler.py) are embedded as Lean functions over explicit
state.  The repository delegates the chess rules to the python-chess
library; the parts of that library the repository calls
(Board.push, Board.legal_moves, Board.is_checkmate, ..., Score.score) are
embedded below following python-chess semantics, with squares numbered as
in python-chess (a1 = 0, h8 = 63, square = rank * 8 + file).
-/

/-- Python exceptions that the embedded code can raise or mention.
chess.IllegalMoveError exists in python-chess but Board.push never raises
it; push asserts that the origin square is occupied (AssertionError). -/
inductive PyExc where
  | assertionError
  | illegalMoveError
  | valueError
  | typeError
deriving DecidableEq

inductive Color where
  | white
  | black
deriving DecidableEq

def Color.other : Color → Color
  | .white => .black
  | .black => .white

inductive PieceType where
  | pawn
  | knight
  | bishop
  | rook
  | queen
  | king
deriving DecidableEq

structure Piece where
  color : Color
  ptype : PieceType
deriving DecidableEq

/-- A chess.Move: origin square, destination square, optional promotion. -/
structure Move where
  from_square : Nat
  to_square : Nat
  promotion : Option PieceType
deriving DecidableEq

/-- Transposition key used by python-chess for repetition detection:
piece placement, side to move, castling rights and en-passant square. -/
structure RepKey where
  pieces : List (Option Piece)
  turn : Color
  castleWK : Bool
  castleWQ : Bool
  castleBK : Bool
  castleBQ : Bool
  ep_square : Option Nat
deriving DecidableEq

/-- A chess.Board.  pieces is a 64-entry list indexed by square;
move_stack and key_history record the played moves and the repetition
keys of earlier positions (python-chess recovers these from its stack). -/
structure Board where
  pieces : List (Option Piece)
  turn : Color
  castleWK : Bool
  castleWQ : Bool
  castleBK : Bool
  castleBQ : Bool
  ep_square : Option Nat
  halfmove_clock : Nat
  fullmove_number : Nat
  move_stack : List Move
  key_history : List RepKey
deriving DecidableEq

def pieceAt (b : Board) (sq : Nat) : Option Piece :=
  b.pieces.getD sq none

/-- Square of file f, rank r when on the board. -/
def sqOf (f r : Int) : Option Nat :=
  if 0 ≤ f ∧ f < 8 ∧ 0 ≤ r ∧ r < 8 then some ((r * 8 + f).toNat) else none

def fileOf (sq : Nat) : Int := Int.ofNat (sq % 8)

def rankOf (sq : Nat) : Int := Int.ofNat (sq / 8)

def knightOffsets : List (Int × Int) :=
  [(1, 2), (2, 1), (2, -1), (1, -2), (-1, -2), (-2, -1), (-2, 1), (-1, 2)]

def kingOffsets : List (Int × Int) :=
  [(1, 0), (1, 1), (0, 1), (-1, 1), (-1, 0), (-1, -1), (0, -1), (1, -1)]

def rookDirs : List (Int × Int) := [(1, 0), (-1, 0), (0, 1), (0, -1)]

def bishopDirs : List (Int × Int) := [(1, 1), (1, -1), (-1, 1), (-1, -1)]

/-- Squares reachable by a single (df, dr) step from sq. -/
def stepTargets (offs : List (Int × Int)) (sq : Nat) : List Nat :=
  offs.filterMap (fun d => sqOf (fileOf sq + d.1) (rankOf sq + d.2))

/-- Squares along a ray until (and including) the first occupied square. -/
def rayAux (b : Board) (f r df dr : Int) : Nat → List Nat
  | 0 => []
  | fuel + 1 =>
    match sqOf (f + df) (r + dr) with
    | none => []
    | some sq =>
      match pieceAt b sq with
      | none => sq :: rayAux b (f + df) (r + dr) df dr fuel
      | some _ => [sq]

def slideTargets (b : Board) (dirs : List (Int × Int)) (sq : Nat) : List Nat :=
  (dirs.map (fun d => rayAux b (fileOf sq) (rankOf sq) d.1 d.2 7)).flatten

/-- First piece encountered walking from (f, r) in direction (df, dr). -/
def firstAlong (b : Board) (f r df dr : Int) : Nat → Option Piece
  | 0 => none
  | fuel + 1 =>
    match sqOf (f + df) (r + dr) with
    | none => none
    | some sq =>
      match pieceAt b sq with
      | some p => some p
      | none => firstAlong b (f + df) (r + dr) df dr fuel

def pieceAtOpt (b : Board) (o : Option Nat) : Option Piece :=
  match o with
  | none => none
  | some sq => pieceAt b sq

/-- Is square sq attacked by any piece of color byC (chess.Board.is_attacked_by). -/
def isAttacked (b : Board) (sq : Nat) (byC : Color) : Bool :=
  let f := fileOf sq
  let r := rankOf sq
  let pawnDr : Int := if byC = Color.white then -1 else 1
  (knightOffsets.any fun d =>
    decide (pieceAtOpt b (sqOf (f + d.1) (r + d.2)) = some ⟨byC, PieceType.knight⟩)) ||
  (kingOffsets.any fun d =>
    decide (pieceAtOpt b (sqOf (f + d.1) (r + d.2)) = some ⟨byC, PieceType.king⟩)) ||
  (([-1, 1] : List Int).any fun df =>
    decide (pieceAtOpt b (sqOf (f + df) (r + pawnDr)) = some ⟨byC, PieceType.pawn⟩)) ||
  (rookDirs.any fun d =>
    match firstAlong b f r d.1 d.2 7 with
    | some p =>
      decide (p.color = byC) && (decide (p.ptype = PieceType.rook) || decide (p.ptype = PieceType.queen))
    | none => false) ||
  (bishopDirs.any fun d =>
    match firstAlong b f r d.1 d.2 7 with
    | some p =>
      decide (p.color = byC) && (decide (p.ptype = PieceType.bishop) || decide (p.ptype = PieceType.queen))
    | none => false)

def ownAt (b : Board) (sq : Nat) (c : Color) : Bool :=
  match pieceAt b sq with
  | some q => decide (q.color = c)
  | none => false

def promoPieces : List PieceType :=
  [PieceType.queen, PieceType.rook, PieceType.bishop, PieceType.knight]

/-- Pseudo-legal pawn moves from sq (pushes, double pushes, captures,
en passant, promotions), following python-chess move generation. -/
def pawnMovesFrom (b : Board) (sq : Nat) (c : Color) : List Move :=
  let f := fileOf sq
  let r := rankOf sq
  let dr : Int := if c = Color.white then 1 else -1
  let startR : Int := if c = Color.white then 1 else 6
  let lastR : Int := if c = Color.white then 7 else 0
  let mkTo : Nat → List Move := fun t =>
    if rankOf t = lastR then promoPieces.map (fun pt => ⟨sq, t, some pt⟩)
    else [⟨sq, t, none⟩]
  let fwd :=
    match sqOf f (r + dr) with
    | none => []
    | some t1 =>
      if (pieceAt b t1).isNone then
        mkTo t1 ++
          (if r = startR then
            match sqOf f (r + 2 * dr) with
            | some t2 => if (pieceAt b t2).isNone then [⟨sq, t2, none⟩] else []
            | none => []
          else [])
      else []
  let caps :=
    ((([-1, 1] : List Int).map fun df =>
      match sqOf (f + df) (r + dr) with
      | none => []
      | some t =>
        match pieceAt b t with
        | some p => if p.color = c then [] else mkTo t
        | none => if b.ep_square = some t then [⟨sq, t, none⟩] else [])).flatten
  fwd ++ caps

/-- Pseudo-legal moves of the piece p standing on sq (castling handled separately). -/
def pieceMovesFrom (b : Board) (sq : Nat) (p : Piece) : List Move :=
  let nonCap : List Nat → List Move := fun ts =>
    ts.filterMap (fun t => if ownAt b t p.color then none else some ⟨sq, t, none⟩)
  match p.ptype with
  | .pawn => pawnMovesFrom b sq p.color
  | .knight => nonCap (stepTargets knightOffsets sq)
  | .king => nonCap (stepTargets kingOffsets sq)
  | .bishop => nonCap (slideTargets b bishopDirs sq)
  | .rook => nonCap (slideTargets b rookDirs sq)
  | .queen => nonCap (slideTargets b (rookDirs ++ bishopDirs) sq)

/-- All pseudo-legal non-castling moves for the side to move. -/
def pseudoMoves (b : Board) : List Move :=
  ((List.range 64).map fun sq =>
    match pieceAt b sq with
    | some p => if p.color = b.turn then pieceMovesFrom b sq p else []
    | none => []).flatten

def emptyAt (b : Board) (sq : Nat) : Bool :=
  (pieceAt b sq).isNone

/-- Castling moves for the side to move: rights present, king and rook in
place, path empty, king not castling out of / through / into check. -/
def castlingMoves (b : Board) : List Move :=
  match b.turn with
  | .white =>
    (if b.castleWK && decide (pieceAt b 4 = some ⟨Color.white, PieceType.king⟩)
        && decide (pieceAt b 7 = some ⟨Color.white, PieceType.rook⟩)
        && emptyAt b 5 && emptyAt b 6
        && !isAttacked b 4 Color.black && !isAttacked b 5 Color.black
        && !isAttacked b 6 Color.black then
      [⟨4, 6, none⟩] else []) ++
    (if b.castleWQ && decide (pieceAt b 4 = some ⟨Color.white, PieceType.king⟩)
        && decide (pieceAt b 0 = some ⟨Color.white, PieceType.rook⟩)
        && emptyAt b 1 && emptyAt b 2 && emptyAt b 3
        && !isAttacked b 4 Color.black && !isAttacked b 3 Color.black
        && !isAttacked b 2 Color.black then
      [⟨4, 2, none⟩] else [])
  | .black =>
    (if b.castleBK && decide (pieceAt b 60 = some ⟨Color.black, PieceType.king⟩)
        && decide (pieceAt b 63 = some ⟨Color.black, PieceType.rook⟩)
        && emptyAt b 61 && emptyAt b 62
        && !isAttacked b 60 Color.white && !isAttacked b 61 Color.white
        && !isAttacked b 62 Color.white then
      [⟨60, 62, none⟩] else []) ++
    (if b.castleBQ && decide (pieceAt b 60 = some ⟨Color.black, PieceType.king⟩)
        && decide (pieceAt b 56 = some ⟨Color.black, PieceType.rook⟩)
        && emptyAt b 57 && emptyAt b 58 && emptyAt b 59
        && !isAttacked b 60 Color.white && !isAttacked b 59 Color.white
        && !isAttacked b 58 Color.white then
      [⟨60, 58, none⟩] else [])

/-- Core of chess.Board.push: apply move m of piece p to the board,
handling captures, en passant, promotion, castling, castling-rights and
counter updates, and flip the side to move. -/
def applyMoveOnBoard (b : Board) (m : Move) (p : Piece) : Board :=
  let fromF := m.from_square % 8
  let toF := m.to_square % 8
  let directCapture := pieceAt b m.to_square
  let isEp := decide (p.ptype = PieceType.pawn) && decide (b.ep_square = some m.to_square)
    && directCapture.isNone && decide (fromF ≠ toF)
  let isCapture := directCapture.isSome || isEp
  let ps := b.pieces.set m.from_square none
  let epCapSq := if p.color = Color.white then m.to_square - 8 else m.to_square + 8
  let ps := if isEp then ps.set epCapSq none else ps
  let placed : Piece := match m.promotion with
    | some pt => ⟨p.color, pt⟩
    | none => p
  let ps := ps.set m.to_square (some placed)
  let isCastle := decide (p.ptype = PieceType.king)
    && decide (max fromF toF - min fromF toF = 2)
  let ps :=
    if isCastle then
      if toF = 6 then
        (ps.set (m.to_square + 1) none).set (m.to_square - 1) (some ⟨p.color, PieceType.rook⟩)
      else
        (ps.set (m.to_square - 2) none).set (m.to_square + 1) (some ⟨p.color, PieceType.rook⟩)
    else ps
  let kingMoveW := decide (p.ptype = PieceType.king) && decide (b.turn = Color.white)
  let kingMoveB := decide (p.ptype = PieceType.king) && decide (b.turn = Color.black)
  let touches : Nat → Bool := fun sq =>
    decide (m.from_square = sq) || decide (m.to_square = sq)
  { b with
    pieces := ps
    turn := b.turn.other
    castleWK := b.castleWK && !touches 7 && !kingMoveW
    castleWQ := b.castleWQ && !touches 0 && !kingMoveW
    castleBK := b.castleBK && !touches 63 && !kingMoveB
    castleBQ := b.castleBQ && !touches 56 && !kingMoveB
    ep_square :=
      if decide (p.ptype = PieceType.pawn)
          && decide (max m.from_square m.to_square - min m.from_square m.to_square = 16) then
        some ((m.from_square + m.to_square) / 2)
      else none
    halfmove_clock :=
      if decide (p.ptype = PieceType.pawn) || isCapture then 0 else b.halfmove_clock + 1
    fullmove_number :=
      if b.turn = Color.black then b.fullmove_number + 1 else b.fullmove_number
    move_stack := b.move_stack ++ [m]
    key_history := b.key_history ++
      [⟨b.pieces, b.turn, b.castleWK, b.castleWQ, b.castleBK, b.castleBQ, b.ep_square⟩] }

/-- chess.Board.push.  python-chess does not check legality here: it only
asserts that the origin square is occupied ("push() expects move to be
pseudo-legal"); an illegal but pseudo-legal move is applied silently. -/
def Board.push (b : Board) (m : Move) : Except PyExc Board :=
  match pieceAt b m.from_square with
  | none => .error .assertionError
  | some p => .ok (applyMoveOnBoard b m p)

def kingSquare (b : Board) (c : Color) : Option Nat :=
  (List.range 64).find? fun sq => decide (pieceAt b sq = some ⟨c, PieceType.king⟩)

/-- Would playing m leave the mover's own king attacked (chess.Board.is_into_check). -/
def intoCheck (b : Board) (m : Move) : Bool :=
  match pieceAt b m.from_square with
  | none => true
  | some p =>
    let b2 := applyMoveOnBoard b m p
    match kingSquare b2 b.turn with
    | none => false
    | some k => isAttacked b2 k b.turn.other

/-- chess.Board.legal_moves: pseudo-legal and castling moves that do not
leave the mover's king in check. -/
def legalMoves (b : Board) : List Move :=
  (pseudoMoves b ++ castlingMoves b).filter (fun m => !intoCheck b m)

def isLegalMove (b : Board) (m : Move) : Bool :=
  decide (m ∈ legalMoves b)

/-- chess.Board.is_check: side to move is in check. -/
def isCheck (b : Board) : Bool :=
  match kingSquare b b.turn with
  | none => false
  | some k => isAttacked b k b.turn.other

def isCheckmate (b : Board) : Bool :=
  isCheck b && (legalMoves b).isEmpty

def isStalemate (b : Board) : Bool :=
  !isCheck b && (legalMoves b).isEmpty

def repKey (b : Board) : RepKey :=
  ⟨b.pieces, b.turn, b.castleWK, b.castleWQ, b.castleBK, b.castleBQ, b.ep_square⟩

/-- chess.Board.is_repetition(3): the current position occurred at least
three times, counting the current occurrence. -/
def isRepetition (b : Board) : Bool :=
  decide (3 ≤ (b.key_history ++ [repKey b]).countP (fun k => decide (k = repKey b)))

def isFivefoldRepetition (b : Board) : Bool :=
  decide (5 ≤ (b.key_history ++ [repKey b]).countP (fun k => decide (k = repKey b)))

/-- chess.Board._is_halfmoves(n): halfmove clock at least n and some legal move exists. -/
def isHalfmovesAtLeast (b : Board) (n : Nat) : Bool :=
  decide (n ≤ b.halfmove_clock) && !(legalMoves b).isEmpty

def isFiftyMoves (b : Board) : Bool :=
  isHalfmovesAtLeast b 100

def isSeventyfiveMoves (b : Board) : Bool :=
  isHalfmovesAtLeast b 150

def countSquares (b : Board) (f : Nat → Piece → Bool) : Nat :=
  (List.range 64).countP (fun sq =>
    match pieceAt b sq with
    | some p => f sq p
    | none => false)

/-- chess.Board.has_insufficient_material(color). -/
def hasInsufficientMaterial (b : Board) (c : Color) : Bool :=
  if 0 < countSquares b (fun _ p => decide (p.color = c)
      && (decide (p.ptype = PieceType.pawn) || decide (p.ptype = PieceType.rook)
          || decide (p.ptype = PieceType.queen))) then
    false
  else if 0 < countSquares b (fun _ p => decide (p.color = c) && decide (p.ptype = PieceType.knight)) then
    decide (countSquares b (fun _ p => decide (p.color = c)) ≤ 2) &&
      decide (countSquares b (fun _ p => decide (p.color = c.other)
        && !(decide (p.ptype = PieceType.king) || decide (p.ptype = PieceType.queen))) = 0)
  else if 0 < countSquares b (fun _ p => decide (p.color = c) && decide (p.ptype = PieceType.bishop)) then
    (decide (countSquares b (fun sq p => decide (p.ptype = PieceType.bishop)
        && decide ((sq / 8 + sq % 8) % 2 = 0)) = 0)
      || decide (countSquares b (fun sq p => decide (p.ptype = PieceType.bishop)
        && decide ((sq / 8 + sq % 8) % 2 = 1)) = 0)) &&
    decide (countSquares b (fun _ p => decide (p.ptype = PieceType.pawn)) = 0) &&
    decide (countSquares b (fun _ p => decide (p.ptype = PieceType.knight)) = 0)
  else true

def isInsufficientMaterial (b : Board) : Bool :=
  hasInsufficientMaterial b Color.white && hasInsufficientMaterial b Color.black

/-- chess.Board.is_game_over(): the automatic terminal conditions checked
by outcome(claim_draw=False). -/
def isGameOver (b : Board) : Bool :=
  isCheckmate b || isInsufficientMaterial b || isStalemate b
    || isSeventyfiveMoves b || isFivefoldRepetition b

def backRank (c : Color) : List (Option Piece) :=
  [some ⟨c, PieceType.rook⟩, some ⟨c, PieceType.knight⟩, some ⟨c, PieceType.bishop⟩,
   some ⟨c, PieceType.queen⟩, some ⟨c, PieceType.king⟩, some ⟨c, PieceType.bishop⟩,
   some ⟨c, PieceType.knight⟩, some ⟨c, PieceType.rook⟩]

def pawnRank (c : Color) : List (Option Piece) :=
  List.replicate 8 (some ⟨c, PieceType.pawn⟩)

def emptyRank : List (Option Piece) :=
  List.replicate 8 none

/-- The standard chess starting position (chess.Board()). -/
def initialBoard : Board :=
  { pieces := backRank Color.white ++ pawnRank Color.white ++ emptyRank ++ emptyRank
      ++ emptyRank ++ emptyRank ++ pawnRank Color.black ++ backRank Color.black
    turn := Color.white
    castleWK := true
    castleWQ := true
    castleBK := true
    castleBQ := true
    ep_square := none
    halfmove_clock := 0
    fullmove_number := 1
    move_stack := []
    key_history := [] }

/-- Does pat occur as a contiguous run at the head of l. -/
def prefixRun : List Char → List Char → Bool
  | [], _ => true
  | _ :: _, [] => false
  | p :: ps, c :: cs => (p == c) && prefixRun ps cs

/-- Does pat occur as a contiguous run anywhere in l. -/
def containsRun (pat : List Char) : List Char → Bool
  | [] => pat.isEmpty
  | c :: cs => prefixRun pat (c :: cs) || containsRun pat cs

/-- Models the Python expression pat in s on strings. -/
def strIn (pat s : String) : Bool :=
  containsRun pat.toList s.toList

/-- The game_count dictionary of GameState: keys player, stockfish, draw. -/
structure GameTally where
  player : Nat
  stockfish : Nat
  draw : Nat
deriving DecidableEq

/-- GameState (game_state.py).  The two callback fields of the Python
class are function-valued and only forward notifications to the engine
layer; they are not part of the tracker state and are omitted here. -/
structure GameState where
  board : Board
  player_color : Color
  difficulty : Option String
  game_state : String
  result : Option String
  promotion_choice : Option PieceType
  move_history : List Board
  current_move_index : Nat
  last_move : Option Move
  game_count : GameTally
  selected_square : Option Nat
  legal_moves_squares : List Nat
  evaluation_mode : Bool
  show_best_move : Bool
  pending_promotion : Option Move
  draw_requested : Bool
deriving DecidableEq

/-- GameState.__init__. -/
def initialGameState : GameState :=
  { board := initialBoard
    player_color := Color.white
    difficulty := none
    game_state := "menu"
    result := none
    promotion_choice := none
    move_history := [initialBoard]
    current_move_index := 0
    last_move := none
    game_count := ⟨0, 0, 0⟩
    selected_square := none
    legal_moves_squares := []
    evaluation_mode := false
    show_best_move := false
    pending_promotion := none
    draw_requested := false }

/-- GameState.reset_game. -/
def reset_game (s : GameState) : GameState :=
  { s with
    board := initialBoard
    move_history := [initialBoard]
    current_move_index := 0
    last_move := none
    selected_square := none
    evaluation_mode := false
    show_best_move := false
    legal_moves_squares := []
    draw_requested := false }

/-- GameState.set_game_state (the state-change callback is omitted). -/
def set_game_state (s : GameState) (st : String) : GameState :=
  let s := { s with game_state := st }
  if st = "menu" then
    { reset_game s with game_count := ⟨0, 0, 0⟩ }
  else s

/-- The statistics update of GameState.end_game: the winning side is
found by searching the result string, and the win is attributed to the
player or the engine according to player_color; anything else is a draw. -/
def end_game_count (t : GameTally) (player_color : Color) (result : String) : GameTally :=
  if strIn "White wins" result then
    if player_color = Color.white then { t with player := t.player + 1 }
    else { t with stockfish := t.stockfish + 1 }
  else if strIn "Black wins" result then
    if player_color = Color.black then { t with player := t.player + 1 }
    else { t with stockfish := t.stockfish + 1 }
  else { t with draw := t.draw + 1 }

/-- GameState.end_game: set game_over and the result string, and update
the game statistics. -/
def end_game (s : GameState) (result : String) : GameState :=
  { s with
    game_state := "game_over"
    result := some result
    game_count := end_game_count s.game_count s.player_color result }

/-- GameState.check_game_end. -/
def check_game_end (s : GameState) : GameState :=
  if isGameOver s.board then
    if isCheckmate s.board then
      end_game s ((if s.board.turn = Color.white then "Black" else "White") ++ " wins by checkmate")
    else if isStalemate s.board then
      end_game s "Game drawn by stalemate"
    else if isInsufficientMaterial s.board then
      end_game s "Game drawn due to insufficient material"
    else if isFiftyMoves s.board then
      end_game s "Game drawn by fifty-move rule"
    else if isRepetition s.board then
      end_game s "Game drawn by repetition"
    else s
  else s

/-- GameState.make_move: push the move on the board (python-chess push,
which may only fail on an empty origin square and never checks legality),
truncate the history beyond the cursor, append the new position, advance
the cursor, check for game end and clear the highlighted squares. -/
def make_move (s : GameState) (m : Move) : Except PyExc GameState :=
  match s.board.push m with
  | .error e => .error e
  | .ok b2 =>
    let s := { s with board := b2, last_move := some m }
    let hist := s.move_history.take (s.current_move_index + 1) ++ [b2]
    let s := { s with move_history := hist, current_move_index := hist.length - 1 }
    let s := check_game_end s
    .ok { s with legal_moves_squares := [] }

/-- GameState.go_back (the position-change callback is omitted).  The
Python code indexes move_history at the decremented cursor; under the
tracker invariant that index is in range, so getD's default is unreachable. -/
def go_back (s : GameState) : GameState :=
  if 0 < s.current_move_index then
    let i := s.current_move_index - 1
    let b := s.move_history.getD i initialBoard
    { s with current_move_index := i, board := b, last_move := b.move_stack.getLast? }
  else s

/-- GameState.go_forward (the position-change callback is omitted). -/
def go_forward (s : GameState) : GameState :=
  if s.current_move_index < s.move_history.length - 1 then
    let i := s.current_move_index + 1
    let b := s.move_history.getD i initialBoard
    { s with current_move_index := i, board := b, last_move := b.move_stack.getLast? }
  else s

/-- GameState.start_game. -/
def start_game (s : GameState) (mode : String) (difficulty : Option String) : GameState :=
  let s := { s with game_state := "playing" }
  let s := reset_game s
  if mode = "singleplayer" then { s with difficulty := difficulty }
  else { s with difficulty := none }

/-- GameState.resign. -/
def resign (s : GameState) : GameState :=
  end_game s ((if s.board.turn = Color.white then "Black" else "White") ++ " wins by resignation")

/-- GameState.offer_draw. -/
def offer_draw (s : GameState) : GameState :=
  end_game s "Game drawn by agreement"

/-- GameState.toggle_evaluation. -/
def toggle_evaluation (s : GameState) : GameState :=
  { s with evaluation_mode := !s.evaluation_mode }

/-- GameState.toggle_best_move. -/
def toggle_best_move (s : GameState) : GameState :=
  { s with show_best_move := !s.show_best_move }

/-- GameState.reset_and_play (the state-change callback is omitted). -/
def reset_and_play (s : GameState) : GameState :=
  let s := reset_game s
  { s with game_state := "playing" }

/-- An engine score from White's perspective, as obtained from
info.get("score").white() in chess.engine: either a centipawn value or a
mate distance (positive = White mates). -/
inductive EScore where
  | cp (n : Int)
  | mate (n : Int)
deriving DecidableEq

/-- chess.engine Score.score() called with no mate_score argument, with
its exception behaviour made explicit: python-chess returns the
centipawn value for Cp scores and None for Mate scores; it never raises
ValueError or TypeError. -/
def scoreCall (s : EScore) : Except PyExc (Option Int) :=
  match s with
  | .cp n => .ok (some n)
  | .mate _ => .ok none

/-- chess.engine PovScore.is_mate(). -/
def scoreIsMate (s : EScore) : Bool :=
  match s with
  | .cp _ => false
  | .mate _ => true

/-- chess.engine Score.mate(). -/
def scoreMate (s : EScore) : Option Int :=
  match s with
  | .cp _ => none
  | .mate n => some n

/-- The score-extraction block of EngineManager._evaluation_worker,
including its try/except structure: the except (ValueError, TypeError)
branch maps mate scores to mate_in = abs(mate) and evaluation = plus or
minus 30000, but it only runs if score.white().score() raises one of
those exceptions.  Returns (evaluation, mate_in). -/
def extractEval (score : Option EScore) : Option Int × Option Nat :=
  match score with
  | none => (some 0, none)
  | some sc =>
    match scoreCall sc with
    | .ok v => (v, none)
    | .error PyExc.valueError =>
      if scoreIsMate sc then
        match scoreMate sc with
        | some n => (some (if 0 < n then 30000 else -30000), some n.natAbs)
        | none => (some 0, none)
      else (some 0, none)
    | .error PyExc.typeError =>
      if scoreIsMate sc then
        match scoreMate sc with
        | some n => (some (if 0 < n then 30000 else -30000), some n.natAbs)
        | none => (some 0, none)
      else (some 0, none)
    | .error _ => (none, none)

/-- What the claim about mate handling expects the worker to publish for
a mate score (written from the specification text, for comparison):
mateInN = absolute mate distance, scoreCentipawns = the sentinel with the
sign of the side the mate favours. -/
def specMateResult (n : Int) : Option Int × Option Nat :=
  (some (if 0 < n then 30000 else -30000), some n.natAbs)

/-- Program counter of the _evaluation_worker loop: check the stop event,
run one analyse-and-publish iteration, wait on the event, or exited. -/
inductive WorkerPC where
  | checkStop
  | work
  | waiting
  | done
deriving DecidableEq

/-- EngineManager state: the stop event, the background worker (modelled
by its program counter; done = no live thread), the number of published
EvaluationResult snapshot writes (best_move, evaluation, pv_line,
mate_in), the stored callback (by identity) and boards. -/
structure EngineMgr where
  stopEvent : Bool
  workerPC : WorkerPC
  writes : Nat
  current_callback : Option Nat
  current_board : Option Board
  evalBoard : Option Board
deriving DecidableEq

def workerAlive (em : EngineMgr) : Bool :=
  match em.workerPC with
  | .done => false
  | _ => true

/-- One atomic step of _evaluation_worker: the loop guard reads the stop
event; a work step performs one engine.analyse call and one locked
snapshot write; the wait step returns after the 100ms timeout or as soon
as the event is set.  A worker that has exited does nothing. -/
def workerStep (em : EngineMgr) : EngineMgr :=
  match em.workerPC with
  | .checkStop => if em.stopEvent then { em with workerPC := .done } else { em with workerPC := .work }
  | .work => { em with writes := em.writes + 1, workerPC := .waiting }
  | .waiting => { em with workerPC := .checkStop }
  | .done => em

def runWorker : Nat → EngineMgr → EngineMgr
  | 0, em => em
  | n + 1, em => if em.workerPC = WorkerPC.done then em else runWorker n (workerStep em)

def stepWorkerN : Nat → EngineMgr → EngineMgr
  | 0, em => em
  | n + 1, em => stepWorkerN n (workerStep em)

/-- EngineManager.stop_evaluation: if the worker thread is alive, set the
stop event and join it.  The join is modelled by running the worker until
it exits; with the event set that takes at most one in-flight iteration
(work, wait, check) before the loop guard observes the event. -/
def stop_evaluation (em : EngineMgr) : EngineMgr :=
  if workerAlive em then
    runWorker 3 { em with stopEvent := true }
  else em

/-- EngineManager.start_evaluation: stop any existing evaluation, store
the callback and board for potential restart, clear the stop event and
spawn a fresh worker thread bound to the given board. -/
def start_evaluation (em : EngineMgr) (b : Board) (cb : Option Nat) : EngineMgr :=
  let em := stop_evaluation em
  let em := { em with current_callback := cb, current_board := some b }
  let em := { em with stopEvent := false }
  { em with workerPC := WorkerPC.checkStop, evalBoard := some b }

/-- EngineManager.reset_evaluation_state. -/
def reset_evaluation_state (em : EngineMgr) : EngineMgr :=
  let em := stop_evaluation em
  { em with current_callback := none, current_board := none }

/-- EngineManager.get_best_move.  playResult is the outcome of the
engine.play call (none models both "engine returned no move" and the
caught CancelledError / Exception paths).  If a continuous evaluation was
running it is stopped first and restarted afterwards on the board with
the returned move applied (or the unchanged board when there is none). -/
def get_best_move (em : EngineMgr) (b : Board) (playResult : Option Move) :
    Except PyExc (Option Move × EngineMgr) :=
  let was_evaluating := workerAlive em
  let em1 := if was_evaluating then stop_evaluation em else em
  if was_evaluating then
    match (match playResult with
           | some m => b.push m
           | none => .ok b : Except PyExc Board) with
    | .error e => .error e
    | .ok updated => .ok (playResult, start_evaluation em1 updated em1.current_callback)
  else
    .ok (playResult, em1)

/-- The buttons of handle_ui_click (ui_elements.py lays them out at
disjoint screen locations, so at most one is hit by a click). -/
inductive UIButton where
  | resignB
  | drawB
  | declineDrawB
  | menuB
  | backB
  | forwardB
  | evaluateB
  | bestMoveB
deriving DecidableEq

/-- Combined tracker and engine state operated on by the input handler. -/
structure App where
  gs : GameState
  em : EngineMgr
deriving DecidableEq

/-- InputHandler.handle_evaluation_toggle (input_handler.py; main.py
substitutes an equivalent version whose callback stores into the
EngineManager snapshot fields). -/
def handle_evaluation_toggle (a : App) : App :=
  if a.gs.evaluation_mode then
    { a with em := start_evaluation a.em a.gs.board none }
  else
    { a with em := stop_evaluation a.em }

/-- InputHandler.handle_ui_click, with the click position abstracted to
which button (if any) it lands on.  The draw and decline-draw branches
are additionally guarded by difficulty is None (two-player games only). -/
def handle_ui_click (a : App) (clicked : Option UIButton) : App :=
  if clicked = some UIButton.resignB then
    { a with gs := resign a.gs }
  else if clicked = some UIButton.drawB ∧ a.gs.difficulty = none then
    if !a.gs.draw_requested then
      { a with gs := { a.gs with draw_requested := true } }
    else
      { a with gs := offer_draw a.gs }
  else if clicked = some UIButton.declineDrawB ∧ a.gs.difficulty = none then
    { a with gs := { a.gs with draw_requested := false } }
  else if clicked = some UIButton.menuB then
    { a with gs := set_game_state a.gs "menu" }
  else if clicked = some UIButton.backB then
    { a with gs := go_back a.gs }
  else if clicked = some UIButton.forwardB then
    { a with gs := go_forward a.gs }
  else if clicked = some UIButton.evaluateB then
    handle_evaluation_toggle { a with gs := toggle_evaluation a.gs }
  else if clicked = some UIButton.bestMoveB ∧ a.gs.evaluation_mode then
    { a with gs := toggle_best_move a.gs }
  else a

/-! Concrete positions and states used by the witnesses and the
counterexample. -/

def emptyPieces : List (Option Piece) := List.replicate 64 none

def place (ps : List (Option Piece)) (l : List (Nat × Piece)) : List (Option Piece) :=
  l.foldl (fun acc x => acc.set x.1 (some x.2)) ps

/-- White Ke1, Ne2; Black Re8, Kh8; White to move.  The knight on e2 is
pinned to the king by the rook, so any knight move is pseudo-legal but
illegal. -/
def pinBoard : Board :=
  { pieces := place emptyPieces
      [(4, ⟨Color.white, PieceType.king⟩), (12, ⟨Color.white, PieceType.knight⟩),
       (60, ⟨Color.black, PieceType.rook⟩), (63, ⟨Color.black, PieceType.king⟩)]
    turn := Color.white
    castleWK := false
    castleWQ := false
    castleBK := false
    castleBQ := false
    ep_square := none
    halfmove_clock := 0
    fullmove_number := 1
    move_stack := []
    key_history := [] }

/-- The illegal (but pseudo-legal) knight move e2-c3 in pinBoard. -/
def pinMove : Move := ⟨12, 18, none⟩

def pinState : GameState :=
  { initialGameState with
    board := pinBoard
    move_history := [pinBoard]
    game_state := "playing" }

/-- White Ka1, Re1; Black Kg8, pawns f7 g7 h7; White to move.
Re1-e8 is a back-rank checkmate in one. -/
def mateBoard : Board :=
  { pieces := place emptyPieces
      [(0, ⟨Color.white, PieceType.king⟩), (4, ⟨Color.white, PieceType.rook⟩),
       (62, ⟨Color.black, PieceType.king⟩), (53, ⟨Color.black, PieceType.pawn⟩),
       (54, ⟨Color.black, PieceType.pawn⟩), (55, ⟨Color.black, PieceType.pawn⟩)]
    turn := Color.white
    castleWK := false
    castleWQ := false
    castleBK := false
    castleBQ := false
    ep_square := none
    halfmove_clock := 0
    fullmove_number := 1
    move_stack := []
    key_history := [] }

/-- The mating move Re1-e8 in mateBoard. -/
def mateMove : Move := ⟨4, 60, none⟩

def mateState : GameState :=
  { initialGameState with
    board := mateBoard
    move_history := [mateBoard]
    game_state := "playing" }

/-- The board of mateBoard after Re1-e8 has been pushed. -/
def mateBoardAfter : Board :=
  applyMoveOnBoard mateBoard mateMove ⟨Color.white, PieceType.rook⟩

/-- The move e2-e4 in the starting position. -/
def moveE2E4 : Move := ⟨12, 28, none⟩

/-- A state whose cursor sits strictly inside a three-entry history. -/
def navState : GameState :=
  { initialGameState with
    move_history := [initialBoard, initialBoard, initialBoard]
    current_move_index := 1 }

def emIdle : EngineMgr :=
  { stopEvent := false
    workerPC := WorkerPC.done
    writes := 0
    current_callback := none
    current_board := none
    evalBoard := none }

/-- An engine manager with a live continuous evaluation. -/
def emRunning : EngineMgr :=
  { stopEvent := false
    workerPC := WorkerPC.checkStop
    writes := 0
    current_callback := some 1
    current_board := some initialBoard
    evalBoard := some initialBoard }

def appTwoPlayer : App :=
  ⟨{ initialGameState with game_state := "playing" }, emIdle⟩

def appSinglePlayer : App :=
  ⟨{ initialGameState with game_state := "playing", difficulty := some "easy" }, emIdle⟩

/-! Helper lemmas. -/

theorem end_game_count_le (t : GameTally) (pc : Color) (r : String) :
    t.player ≤ (end_game_count t pc r).player ∧
    t.stockfish ≤ (end_game_count t pc r).stockfish ∧
    t.draw ≤ (end_game_count t pc r).draw := by
  unfold end_game_count
  repeat' split
  all_goals simp

theorem check_game_end_move_history (s : GameState) :
    (check_game_end s).move_history = s.move_history := by
  unfold check_game_end
  repeat' split
  all_goals rfl

theorem check_game_end_index (s : GameState) :
    (check_game_end s).current_move_index = s.current_move_index := by
  unfold check_game_end
  repeat' split
  all_goals rfl

theorem check_game_end_board (s : GameState) :
    (check_game_end s).board = s.board := by
  unfold check_game_end
  repeat' split
  all_goals rfl

theorem check_game_end_count_le (s : GameState) :
    s.game_count.player ≤ (check_game_end s).game_count.player ∧
    s.game_count.stockfish ≤ (check_game_end s).game_count.stockfish ∧
    s.game_count.draw ≤ (check_game_end s).game_count.draw := by
  unfold check_game_end
  repeat' split
  all_goals first
    | exact ⟨le_refl _, le_refl _, le_refl _⟩
    | exact end_game_count_le _ _ _

/-- When the position is checkmate, check_game_end takes exactly the
checkmate branch. -/
theorem check_game_end_checkmate (s : GameState) (h : isCheckmate s.board = true) :
    check_game_end s =
      end_game s ((if s.board.turn = Color.white then "Black" else "White") ++ " wins by checkmate") := by
  unfold check_game_end isGameOver
  rw [h]
  simp

theorem workerStep_done (em : EngineMgr) (h : em.workerPC = WorkerPC.done) :
    workerStep em = em := by
  unfold workerStep
  rw [h]

theorem stepWorkerN_done (n : Nat) (em : EngineMgr) (h : em.workerPC = WorkerPC.done) :
    stepWorkerN n em = em := by
  induction n with
  | zero => rfl
  | succ k ih =>
    show stepWorkerN k (workerStep em) = em
    rw [workerStep_done em h]
    exact ih

/-- After stop_evaluation the worker has exited. -/
theorem stop_evaluation_pc (em : EngineMgr) :
    (stop_evaluation em).workerPC = WorkerPC.done := by
  obtain ⟨ev, pc, w, cb, b1, b2⟩ := em
  cases pc <;> rfl

theorem stop_evaluation_callback (em : EngineMgr) :
    (stop_evaluation em).current_callback = em.current_callback := by
  obtain ⟨ev, pc, w, cb, b1, b2⟩ := em
  cases pc <;> rfl

theorem workerAlive_false_of_done (em : EngineMgr) (h : em.workerPC = WorkerPC.done) :
    workerAlive em = false := by
  unfold workerAlive
  rw [h]

/-! Claim theorems. -/

/-- The tracker state after the board push and history bookkeeping of
make_move, before check_game_end runs. -/
def midState (s : GameState) (m : Move) (b2 : Board) : GameState :=
  { s with
    board := b2
    last_move := some m
    move_history := s.move_history.take (s.current_move_index + 1) ++ [b2]
    current_move_index := (s.move_history.take (s.current_move_index + 1) ++ [b2]).length - 1 }

deriving instance DecidableEq for Except

theorem make_move_err (s : GameState) (m : Move) (e : PyExc)
    (hpush : s.board.push m = Except.error e) :
    make_move s m = Except.error e := by
  unfold make_move
  rw [hpush]

theorem make_move_ok (s : GameState) (m : Move) (b2 : Board)
    (hpush : s.board.push m = Except.ok b2) :
    make_move s m = Except.ok { check_game_end (midState s m b2) with legal_moves_squares := [] } := by
  unfold make_move midState
  rw [hpush]

/-- C3: after navigating the cursor back to index k, applying a new move
truncates all snapshots beyond k, appends the new position, and leaves
the history with k + 2 entries and the cursor on the new last snapshot.
(The code path is the same for every move Board.push accepts, in
particular every legal move.) -/
theorem c3_move_truncates_future_history (s : GameState) (m : Move) (b2 : Board)
    (hpush : s.board.push m = Except.ok b2)
    (hcur : s.current_move_index < s.move_history.length) :
    ∃ s2, make_move s m = Except.ok s2 ∧
      s2.move_history = s.move_history.take (s.current_move_index + 1) ++ [b2] ∧
      s2.move_history.length = s.current_move_index + 2 ∧
      s2.current_move_index = s.current_move_index + 1 ∧
      s2.current_move_index = s2.move_history.length - 1 := by
  have hlen : (s.move_history.take (s.current_move_index + 1) ++ [b2]).length
      = s.current_move_index + 2 := by
    simp [List.length_take]
    omega
  refine ⟨_, make_move_ok s m b2 hpush, ?_, ?_, ?_, ?_⟩
  · show (check_game_end _).move_history = _
    rw [check_game_end_move_history]
    simp [midState]
  · show (check_game_end _).move_history.length = _
    rw [check_game_end_move_history]
    simp [midState, List.length_take]
    omega
  · show (check_game_end _).current_move_index = _
    rw [check_game_end_index]
    simp [midState, List.length_take]
    omega
  · show (check_game_end _).current_move_index = (check_game_end _).move_history.length - 1
    rw [check_game_end_index, check_game_end_move_history]
    simp [midState]

theorem c3_witness :
    pinState.board.push pinMove
      = Except.ok (applyMoveOnBoard pinBoard pinMove ⟨Color.white, PieceType.knight⟩) ∧
    pinState.current_move_index < pinState.move_history.length ∧
    (∃ s2, make_move pinState pinMove = Except.ok s2 ∧
      s2.move_history = pinState.move_history.take (pinState.current_move_index + 1)
        ++ [applyMoveOnBoard pinBoard pinMove ⟨Color.white, PieceType.knight⟩] ∧
      s2.move_history.length = pinState.current_move_index + 2 ∧
      s2.current_move_index = pinState.current_move_index + 1 ∧
      s2.current_move_index = s2.move_history.length - 1) :=
  ⟨by decide, by decide,
    c3_move_truncates_future_history pinState pinMove
      (applyMoveOnBoard pinBoard pinMove ⟨Color.white, PieceType.knight⟩)
      (by decide) (by decide)⟩

/-- C4: with the cursor strictly inside the history bounds (and the live
board equal to the snapshot under the cursor, which every tracker
operation maintains), go_back followed by go_forward restores the exact
Position that was live before the navigation, and neither call mutates
the history sequence. -/
theorem c4_back_forward_roundtrip (s : GameState)
    (h0 : 0 < s.current_move_index)
    (h1 : s.current_move_index < s.move_history.length - 1)
    (hb : s.board = s.move_history.getD s.current_move_index initialBoard) :
    (go_back s).move_history = s.move_history ∧
    (go_forward (go_back s)).move_history = s.move_history ∧
    (go_forward (go_back s)).current_move_index = s.current_move_index ∧
    (go_forward (go_back s)).board = s.board := by
  unfold go_back
  rw [if_pos h0]
  unfold go_forward
  dsimp only
  rw [if_pos (by omega : s.current_move_index - 1 < s.move_history.length - 1)]
  dsimp only
  have hi : s.current_move_index - 1 + 1 = s.current_move_index := by omega
  rw [hi]
  exact ⟨rfl, rfl, rfl, hb.symm⟩

theorem c4_witness :
    0 < navState.current_move_index ∧
    navState.current_move_index < navState.move_history.length - 1 ∧
    navState.board = navState.move_history.getD navState.current_move_index initialBoard ∧
    ((go_back navState).move_history = navState.move_history ∧
      (go_forward (go_back navState)).move_history = navState.move_history ∧
      (go_forward (go_back navState)).current_move_index = navState.current_move_index ∧
      (go_forward (go_back navState)).board = navState.board) :=
  ⟨by decide, by decide, by decide,
    c4_back_forward_roundtrip navState (by decide) (by decide) (by decide)⟩

/-- The invariant of C8: the history cursor is a valid index into the
move history (cursor in [0, length - 1], with the lower bound automatic
for a natural number) and the history is never empty. -/
def trackerInv (s : GameState) : Prop :=
  s.current_move_index < s.move_history.length ∧ s.move_history ≠ []

/-- C8: make_move (whenever it returns a state), go_back, go_forward and
reset_game all preserve the cursor-in-bounds and non-empty-history
invariant. -/
theorem c8_operations_preserve_invariant (s : GameState) (m : Move) (h : trackerInv s) :
    (∀ s2, make_move s m = Except.ok s2 → trackerInv s2) ∧
    trackerInv (go_back s) ∧
    trackerInv (go_forward s) ∧
    trackerInv (reset_game s) := by
  obtain ⟨hlt, hne⟩ := h
  refine ⟨?_, ?_, ?_, ?_⟩
  · intro s2 hmk
    cases hp : s.board.push m with
    | error e =>
      rw [make_move_err s m e hp] at hmk
      exact absurd hmk (by simp)
    | ok b2 =>
      rw [make_move_ok s m b2 hp] at hmk
      have hs2 : s2 = { check_game_end (midState s m b2) with legal_moves_squares := [] } := by
        injection hmk with h2
        exact h2.symm
      subst hs2
      constructor
      · show (check_game_end _).current_move_index < _
        rw [check_game_end_index, check_game_end_move_history]
        simp [midState]
      · show (check_game_end _).move_history ≠ []
        rw [check_game_end_move_history]
        simp [midState]
  · unfold go_back
    split
    · exact ⟨by dsimp only; omega, hne⟩
    · exact ⟨hlt, hne⟩
  · unfold go_forward
    split
    · next hg => exact ⟨by dsimp only; omega, hne⟩
    · exact ⟨hlt, hne⟩
  · exact ⟨by simp [reset_game], by simp [reset_game]⟩

theorem c8_witness :
    trackerInv pinState ∧
    ((∀ s2, make_move pinState pinMove = Except.ok s2 → trackerInv s2) ∧
      trackerInv (go_back pinState) ∧
      trackerInv (go_forward pinState) ∧
      trackerInv (reset_game pinState)) :=
  ⟨⟨by decide, by decide⟩,
    c8_operations_preserve_invariant pinState pinMove ⟨by decide, by decide⟩⟩

/-- C1 counterexample: in pinBoard the knight move e2-c3 is not legal
(the knight is pinned), yet make_move does not fail with
IllegalMoveError; it succeeds and changes the tracker state (the board
changes and the history grows to two snapshots). -/
theorem c1_counterexample :
    isLegalMove pinBoard pinMove = false ∧
    make_move pinState pinMove ≠ Except.error PyExc.illegalMoveError ∧
    (make_move pinState pinMove).toOption.map (fun s => s.move_history.length) = some 2 ∧
    (make_move pinState pinMove).toOption.map (fun s => s.board) ≠ some pinState.board := by
  refine ⟨by decide, by decide, by decide, by decide⟩

/-- C1 amended: make_move performs no legality check at all.  For every
move whose origin square is occupied (the only precondition Board.push
checks), make_move succeeds — legal or not — applying the move to the
board and appending the new position to the history; rejection of
illegal moves happens in the callers (InputHandler only calls make_move
for moves it finds in board.legal_moves). -/
theorem c1_amended_no_legality_check (s : GameState) (m : Move) (p : Piece)
    (h : pieceAt s.board m.from_square = some p) :
    ∃ s2, make_move s m = Except.ok s2 ∧
      s2.board = applyMoveOnBoard s.board m p ∧
      s2.move_history = s.move_history.take (s.current_move_index + 1)
        ++ [applyMoveOnBoard s.board m p] := by
  have hpush : s.board.push m = Except.ok (applyMoveOnBoard s.board m p) := by
    unfold Board.push
    rw [h]
  refine ⟨_, make_move_ok s m _ hpush, ?_, ?_⟩
  · show (check_game_end _).board = _
    rw [check_game_end_board]
    rfl
  · show (check_game_end _).move_history = _
    rw [check_game_end_move_history]
    rfl

theorem c1_witness :
    pieceAt pinState.board pinMove.from_square = some ⟨Color.white, PieceType.knight⟩ ∧
    (∃ s2, make_move pinState pinMove = Except.ok s2 ∧
      s2.board = applyMoveOnBoard pinState.board pinMove ⟨Color.white, PieceType.knight⟩ ∧
      s2.move_history = pinState.move_history.take (pinState.current_move_index + 1)
        ++ [applyMoveOnBoard pinState.board pinMove ⟨Color.white, PieceType.knight⟩]) :=
  ⟨by decide,
    c1_amended_no_legality_check pinState pinMove ⟨Color.white, PieceType.knight⟩ (by decide)⟩

/-- The tally update for a checkmate result string: the winner is the
opposite of the side to move in the mated position, and the win is
booked to the player exactly when that colour is player_color. -/
theorem end_game_count_checkmate (t : GameTally) (pc c : Color) :
    end_game_count t pc ((if c = Color.white then "Black" else "White") ++ " wins by checkmate")
      = (if c.other = pc then { t with player := t.player + 1 }
         else { t with stockfish := t.stockfish + 1 }) := by
  have sBW : strIn "White wins" "Black wins by checkmate" = false := by decide
  have sBB : strIn "Black wins" "Black wins by checkmate" = true := by decide
  have sWW : strIn "White wins" "White wins by checkmate" = true := by decide
  cases c <;> cases pc <;>
    simp [end_game_count, Color.other, sBW, sBB, sWW]

/-- C2: when the applied move delivers checkmate, make_move moves the
phase to game_over with a result string naming the winning side by
checkmate, and exactly one tally counter is incremented — the player's
when the winning colour is player_color, the engine's otherwise (the
draw counter is untouched). -/
theorem c2_checkmate_ends_game (s : GameState) (m : Move) (b2 : Board)
    (hpush : s.board.push m = Except.ok b2)
    (hmate : isCheckmate b2 = true) :
    ∃ s2, make_move s m = Except.ok s2 ∧
      s2.game_state = "game_over" ∧
      s2.result = some ((if b2.turn = Color.white then "Black" else "White") ++ " wins by checkmate") ∧
      s2.game_count = (if b2.turn.other = s.player_color
        then { s.game_count with player := s.game_count.player + 1 }
        else { s.game_count with stockfish := s.game_count.stockfish + 1 }) := by
  have hbmid : (midState s m b2).board = b2 := rfl
  have hcm := check_game_end_checkmate (midState s m b2) (by rw [hbmid]; exact hmate)
  rw [hbmid] at hcm
  refine ⟨_, make_move_ok s m b2 hpush, ?_, ?_, ?_⟩
  · show (check_game_end _).game_state = _
    rw [hcm]
    rfl
  · show (check_game_end _).result = _
    rw [hcm]
    rfl
  · show (check_game_end _).game_count = _
    rw [hcm]
    show end_game_count s.game_count s.player_color _ = _
    exact end_game_count_checkmate s.game_count s.player_color b2.turn

theorem c2_witness :
    mateState.board.push mateMove = Except.ok mateBoardAfter ∧
    isCheckmate mateBoardAfter = true ∧
    (∃ s2, make_move mateState mateMove = Except.ok s2 ∧
      s2.game_state = "game_over" ∧
      s2.result = some ((if mateBoardAfter.turn = Color.white then "Black" else "White")
        ++ " wins by checkmate") ∧
      s2.game_count = (if mateBoardAfter.turn.other = mateState.player_color
        then { mateState.game_count with player := mateState.game_count.player + 1 }
        else { mateState.game_count with stockfish := mateState.game_count.stockfish + 1 })) :=
  ⟨by decide, by decide,
    c2_checkmate_ends_game mateState mateMove mateBoardAfter (by decide) (by decide)⟩

/-- C5 (code bug): for a mate score the worker publishes
evaluation = None and mate_in = None.  Score.score() returns None for
mate scores instead of raising ValueError/TypeError, so the except
branch that was written to map mate scores to mate_in and the plus or
minus 30000 sentinel (and whose comments promise "Never leave evaluation
as None") can never run.  The claimed behaviour specMateResult is what
that dead branch would produce. -/
theorem c5_mate_score_never_published :
    extractEval (some (EScore.mate 3)) = (none, none) ∧
    extractEval (some (EScore.mate 3)) ≠ specMateResult 3 ∧
    specMateResult 3 = (some 30000, some 3) ∧
    extractEval (some (EScore.mate (-2))) = (none, none) ∧
    specMateResult (-2) = (some (-30000), some 2) := by
  refine ⟨by decide, by decide, by decide, by decide, by decide⟩

/-- C6: stop_evaluation is synchronous.  After it returns the worker
thread has exited (its program counter is done, so it is no longer
alive), and however many further steps the worker system takes, the
count of EvaluationResult snapshot writes never changes until a new
start_evaluation spawns a fresh worker. -/
theorem c6_stop_blocks_until_worker_exit (em : EngineMgr) :
    (stop_evaluation em).workerPC = WorkerPC.done ∧
    workerAlive (stop_evaluation em) = false ∧
    ∀ n, (stepWorkerN n (stop_evaluation em)).writes = (stop_evaluation em).writes := by
  refine ⟨stop_evaluation_pc em, workerAlive_false_of_done _ (stop_evaluation_pc em), ?_⟩
  intro n
  rw [stepWorkerN_done n _ (stop_evaluation_pc em)]

/-- C7: when a continuous evaluation is in flight, get_best_move stops
it before the engine.play call (so the worker is not alive while the
call runs), and afterwards restarts it — with the stored callback — on
the resulting position: the input board with the returned move applied
when a move is returned, and the unchanged input board otherwise. -/
theorem c7_best_move_suspends_and_retargets (em : EngineMgr) (b : Board)
    (res : Option Move) (bu : Board)
    (halive : workerAlive em = true)
    (hup : (match res with
            | some m => b.push m
            | none => Except.ok b) = Except.ok bu) :
    workerAlive (stop_evaluation em) = false ∧
    ∃ em2, get_best_move em b res = Except.ok (res, em2) ∧
      em2.evalBoard = some bu ∧
      workerAlive em2 = true ∧
      em2.current_callback = em.current_callback ∧
      (res = none → bu = b) := by
  refine ⟨workerAlive_false_of_done _ (stop_evaluation_pc em), ?_⟩
  refine ⟨start_evaluation (stop_evaluation em) bu (stop_evaluation em).current_callback,
    ?_, ?_, ?_, ?_, ?_⟩
  · unfold get_best_move
    rw [halive]
    cases res with
    | none =>
      have hbu : b = bu := by simpa using hup
      subst hbu
      rfl
    | some mv =>
      have hp : b.push mv = Except.ok bu := hup
      simp only [if_true]
      rw [hp]
  · simp [start_evaluation]
  · simp [start_evaluation, workerAlive]
  · show (start_evaluation _ _ _).current_callback = _
    simp [start_evaluation]
    exact stop_evaluation_callback em
  · intro hres
    subst hres
    simpa using hup.symm

theorem c7_witness :
    workerAlive emRunning = true ∧
    (match some moveE2E4 with
      | some m => initialBoard.push m
      | none => Except.ok initialBoard)
      = Except.ok (applyMoveOnBoard initialBoard moveE2E4 ⟨Color.white, PieceType.pawn⟩) ∧
    (workerAlive (stop_evaluation emRunning) = false ∧
      ∃ em2, get_best_move emRunning initialBoard (some moveE2E4) = Except.ok (some moveE2E4, em2) ∧
        em2.evalBoard = some (applyMoveOnBoard initialBoard moveE2E4 ⟨Color.white, PieceType.pawn⟩) ∧
        workerAlive em2 = true ∧
        em2.current_callback = emRunning.current_callback ∧
        (some moveE2E4 = none →
          applyMoveOnBoard initialBoard moveE2E4 ⟨Color.white, PieceType.pawn⟩ = initialBoard)) :=
  ⟨by decide, by decide,
    c7_best_move_suspends_and_retargets emRunning initialBoard (some moveE2E4)
      (applyMoveOnBoard initialBoard moveE2E4 ⟨Color.white, PieceType.pawn⟩)
      (by decide) (by decide)⟩

/-- What C9 asserts about the draw buttons, for a two-player app a
(difficulty unset) and a single-player app a2 (difficulty set): a first
draw click only sets the pending flag, a second ends the game as a draw
by agreement, a decline click only clears the flag, and in single-player
games both buttons do nothing. -/
def ClaimNineHolds (a a2 : App) : Prop :=
  (a.gs.draw_requested = false →
    handle_ui_click a (some UIButton.drawB)
      = { a with gs := { a.gs with draw_requested := true } }) ∧
  (a.gs.draw_requested = true →
    (handle_ui_click a (some UIButton.drawB)).gs = offer_draw a.gs ∧
    (handle_ui_click a (some UIButton.drawB)).gs.game_state = "game_over" ∧
    (handle_ui_click a (some UIButton.drawB)).gs.result = some "Game drawn by agreement") ∧
  (handle_ui_click a (some UIButton.declineDrawB)
    = { a with gs := { a.gs with draw_requested := false } }) ∧
  handle_ui_click a2 (some UIButton.drawB) = a2 ∧
  handle_ui_click a2 (some UIButton.declineDrawB) = a2

/-- C9: the draw-request protocol of handle_ui_click.  A single draw
click in a two-player game never ends the game (it only sets
draw_requested); a second click while the request is pending ends the
game as "Game drawn by agreement"; decline clears the pending flag; with
a difficulty set, draw and decline clicks leave the state untouched. -/
theorem c9_draw_request_protocol (a a2 : App) (d : String)
    (h2p : a.gs.difficulty = none) (hsp : a2.gs.difficulty = some d) :
    ClaimNineHolds a a2 := by
  refine ⟨?_, ?_, ?_, ?_, ?_⟩
  · intro hreq
    simp [handle_ui_click, h2p, hreq]
  · intro hreq
    refine ⟨?_, ?_, ?_⟩ <;> simp [handle_ui_click, h2p, hreq, offer_draw, end_game]
  · simp [handle_ui_click, h2p]
  · simp [handle_ui_click, hsp]
  · simp [handle_ui_click, hsp]

theorem c9_witness :
    appTwoPlayer.gs.difficulty = none ∧
    appSinglePlayer.gs.difficulty = some "easy" ∧
    ClaimNineHolds appTwoPlayer appSinglePlayer :=
  ⟨rfl, rfl, c9_draw_request_protocol appTwoPlayer appSinglePlayer "easy" rfl rfl⟩

def tallyLE (t u : GameTally) : Prop :=
  t.player ≤ u.player ∧ t.stockfish ≤ u.stockfish ∧ t.draw ≤ u.draw

/-- What C10 asserts: reset_and_play and start_game reset the board,
history, cursor, selection and evaluation flags but keep the tally and
the player's colour; the tally is zeroed by the transition into the menu
phase and by no other tracker operation (the other operations keep it
equal or only ever increment it). -/
def ClaimTenHolds (s : GameState) (mode : String) (diff : Option String) (st : String) : Prop :=
  (reset_and_play s).game_count = s.game_count ∧
  (reset_and_play s).player_color = s.player_color ∧
  (reset_and_play s).board = initialBoard ∧
  (reset_and_play s).move_history = [initialBoard] ∧
  (reset_and_play s).current_move_index = 0 ∧
  (reset_and_play s).selected_square = none ∧
  (reset_and_play s).evaluation_mode = false ∧
  (reset_and_play s).show_best_move = false ∧
  (reset_and_play s).game_state = "playing" ∧
  (start_game s mode diff).game_count = s.game_count ∧
  (start_game s mode diff).player_color = s.player_color ∧
  (start_game s mode diff).board = initialBoard ∧
  (start_game s mode diff).move_history = [initialBoard] ∧
  (start_game s mode diff).current_move_index = 0 ∧
  (start_game s mode diff).selected_square = none ∧
  (start_game s mode diff).evaluation_mode = false ∧
  (start_game s mode diff).show_best_move = false ∧
  (set_game_state s "menu").game_count = ⟨0, 0, 0⟩ ∧
  (set_game_state s st).game_count = s.game_count ∧
  (reset_game s).game_count = s.game_count ∧
  (go_back s).game_count = s.game_count ∧
  (go_forward s).game_count = s.game_count ∧
  tallyLE s.game_count (resign s).game_count ∧
  tallyLE s.game_count (offer_draw s).game_count ∧
  (∀ m s2, make_move s m = Except.ok s2 → tallyLE s.game_count s2.game_count)

/-- C10: reset_and_play ("play again") and start_game reset board,
history, cursor, selection and evaluation flags but leave game_count and
player_color unchanged; only the transition into the menu phase zeroes
the tally (every other tracker operation preserves or increments it). -/
theorem c10_reset_keeps_tally (s : GameState) (mode : String) (diff : Option String)
    (st : String) (hst : st ≠ "menu") :
    ClaimTenHolds s mode diff st := by
  refine ⟨rfl, rfl, rfl, rfl, rfl, rfl, rfl, rfl, rfl, ?_, ?_, ?_, ?_, ?_, ?_, ?_, ?_,
    ?_, ?_, rfl, ?_, ?_, ?_, ?_, ?_⟩
  · unfold start_game
    split <;> rfl
  · unfold start_game
    split <;> rfl
  · unfold start_game
    split <;> rfl
  · unfold start_game
    split <;> rfl
  · unfold start_game
    split <;> rfl
  · unfold start_game
    split <;> rfl
  · unfold start_game
    split <;> rfl
  · unfold start_game
    split <;> rfl
  · simp [set_game_state]
  · unfold set_game_state
    rw [if_neg hst]
  · unfold go_back
    split <;> rfl
  · unfold go_forward
    split <;> rfl
  · exact end_game_count_le _ _ _
  · exact end_game_count_le _ _ _
  · intro m s2 hmk
    cases hp : s.board.push m with
    | error e =>
      rw [make_move_err s m e hp] at hmk
      exact absurd hmk (by simp)
    | ok b2 =>
      rw [make_move_ok s m b2 hp] at hmk
      have hs2 : s2 = { check_game_end (midState s m b2) with legal_moves_squares := [] } := by
        injection hmk with h2
        exact h2.symm
      subst hs2
      show tallyLE s.game_count (check_game_end (midState s m b2)).game_count
      exact check_game_end_count_le (midState s m b2)

theorem c10_witness :
    ("playing" : String) ≠ "menu" ∧
    ClaimTenHolds initialGameState "multiplayer" none "playing" :=
  ⟨by decide, c10_reset_keeps_tally initialGameState "multiplayer" none "playing" (by decide)⟩
